import Mathlib

/-!
Shallow embedding of `src/keygen/keygen.py` (functions `blacklistCharacters`
and `keygen`) and proofs about it.

Modelling conventions:
* a Python `str` is a `List Char`;
* a value appearing as an element of one of the list arguments is a `PyElem`
  (either a `str` or some non-string value);
* a value passed as one of the container arguments (`numbers`, `letters`,
  `symbols`, `blacklist`) is a `PyArg`: a real `list`, `None`, a non-list
  iterable (tuple, str, ...), or a non-list non-iterable value;
* `keyLength` is a `PyInt`: an `int`, `None`, or a non-int value
  (Python ints are unbounded, so `Int` is exact);
* raising an exception is the `KgOutcome.raises` outcome; entering one of the
  blocking `input()` prompt loops is the `KgOutcome.prompts` outcome;
* `random.choice` is modelled by `pyChoice` taking an explicit index; the
  process-wide generator becomes an explicit stream `c : Nat -> Nat × Nat`
  supplying, for each output position, the index pair consumed by the two
  nested `rng.choice` calls;
* a Python `set` of characters is represented by the duplicate-free list of
  its elements (`pySetL`); iteration order of a Python set is
  implementation-defined, so theorems speak about the sets via `toFinset`.
-/

namespace Keygen

/-- A Python value appearing as an element of a list argument: a `str`
(given by its characters) or a non-string value. -/
inductive PyElem where
  | str (s : List Char)
  | nonStr
deriving DecidableEq

/-- A Python value passed as a container argument. -/
inductive PyArg where
  | pylist (xs : List PyElem)
  | pynone
  | iter (xs : List PyElem)
  | noniter
deriving DecidableEq

/-- A Python value passed as `keyLength`. -/
inductive PyInt where
  | int (n : Int)
  | none
  | nonInt
deriving DecidableEq

/-- The exceptions the two functions can raise, by raise site.
`isValueError` below records the Python exception class of each. -/
inductive PyErr where
  | invalidBlacklistType
  | invalidKeyLengthType
  | invalidListTypes (names : List String)
  | invalidCharLengths (names : List String)
  | notIterable (name : String)
  | missingBlacklist
  | missingKeyLength
  | nonPositiveKeyLength
  | allPoolsEmpty
deriving DecidableEq

/-- Which of the raised exceptions are Python `ValueError`s (the others are
`TypeError`s). -/
def PyErr.isValueError : PyErr → Bool
  | .invalidCharLengths _ => true
  | .nonPositiveKeyLength => true
  | .allPoolsEmpty => true
  | _ => false

/-- Outcome of calling one of the functions: normal return, a raised
exception, or entry into a blocking interactive `input()` loop. -/
inductive KgOutcome (α : Type) where
  | ok (a : α)
  | raises (e : PyErr)
  | prompts
deriving DecidableEq

/-- `isinstance(string, str) and len(string) == 1` (line 69 / line 169). -/
def PyElem.isSingleChar : PyElem → Bool
  | .str s => s.length == 1
  | .nonStr => false

/-- `isinstance(arg, list)`. -/
def PyArg.isList : PyArg → Bool
  | .pylist _ => true
  | _ => false

/-- `arg == None`. -/
def PyArg.isNone : PyArg → Bool
  | .pynone => true
  | _ => false

/-- Elements obtained by iterating the argument; `none` when the value is not
iterable (`None` or a non-iterable object). -/
def PyArg.elems : PyArg → Option (List PyElem)
  | .pylist xs => some xs
  | .iter xs => some xs
  | _ => Option.none

/-- The validation loop of `blacklistCharacters` (lines 65-70): walks the four
named arguments in dictionary order, collecting `listFails` (skipping
`blacklist`, whose container type was already checked at line 57) and
`characterFails` (skipping `None` arguments, guarded by `listArgument != None`).
Iterating a non-iterable argument inside `all(...)` raises a `TypeError`
immediately, aborting the collection. -/
def bcCollect : List (String × PyArg) → List String → List String →
    KgOutcome (List String × List String)
  | [], lf, cf => .ok (lf, cf)
  | (name, arg) :: rest, lf, cf =>
    let lf := if name != "blacklist" && !arg.isList then lf ++ [name] else lf
    if arg.isNone then bcCollect rest lf cf
    else
      match arg.elems with
      | some xs =>
          bcCollect rest lf
            (if xs.all PyElem.isSingleChar then cf else cf ++ [name])
      | Option.none => .raises (.notIterable name)

/-- The validation loop of `keygen` (lines 166-170): same as `bcCollect` but
over three arguments, with no `blacklist` exemption and no `!= None` guard
(so a `None` pool is iterated and raises `TypeError`). -/
def kgCollect : List (String × PyArg) → List String → List String →
    KgOutcome (List String × List String)
  | [], lf, cf => .ok (lf, cf)
  | (name, arg) :: rest, lf, cf =>
    let lf := if !arg.isList then lf ++ [name] else lf
    match arg.elems with
    | some xs =>
        kgCollect rest lf
          (if xs.all PyElem.isSingleChar then cf else cf ++ [name])
    | Option.none => .raises (.notIterable name)

/-- The characters of a validated list argument (each element a one-character
`str`). -/
def toChars (xs : List PyElem) : List Char :=
  xs.filterMap fun e =>
    match e with
    | .str [c] => some c
    | _ => Option.none

/-- A Python set of characters, represented as the list of its elements in
some implementation-defined order (here: first occurrences). `set(xs)`. -/
def pySetL (xs : List Char) : List Char :=
  xs.dedup

/-- Python set difference `xs - ys` on the list representation. -/
def pyDiffL (xs ys : List Char) : List Char :=
  xs.filter fun c => decide (c ∉ ys)

/-- Python set union `xs | ys` on the list representation. -/
def pyUnionL (xs ys : List Char) : List Char :=
  xs ++ ys.filter fun c => decide (c ∉ xs)

/-- Lines 92-110 of `blacklistCharacters`: the set computations and the
contents written back into the four containers by the slice assignments
(`numbers[:] = list(numbersSet)` and so on). Returns the new contents of
`numbers`, `letters`, `symbols`, `blacklist`. -/
def bcCore (numbers letters symbols blacklist : List Char) :
    List Char × List Char × List Char × List Char :=
  let numbersSet := pySetL numbers
  let lettersSet := pySetL letters
  let symbolsSet := pySetL symbols
  let blacklistSet := pySetL blacklist
  let numbersSet := pyDiffL numbersSet blacklistSet
  let lettersSet := pyDiffL lettersSet blacklistSet
  let symbolsSet := pyDiffL symbolsSet blacklistSet
  let blacklistSet :=
    pyDiffL blacklistSet
      (pyUnionL (pyUnionL (pySetL numbers) (pySetL letters)) (pySetL symbols))
  (numbersSet, lettersSet, symbolsSet, blacklistSet)

/-- `blacklistCharacters` (lines 17-118). `printToConsole` is a real `Bool`
here, so the line 53 isinstance check always passes. On success the result
carries the final contents of the three mutated pool containers and of the
returned blacklist container. -/
def blacklistCharacters (numbers letters symbols blacklist : PyArg)
    (printToConsole : Bool) :
    KgOutcome (List Char × List Char × List Char × List Char) :=
  -- line 57: blacklist must be a list if it is not None
  if !blacklist.isNone && !blacklist.isList then .raises .invalidBlacklistType
  else
    match bcCollect [("numbers", numbers), ("letters", letters),
        ("symbols", symbols), ("blacklist", blacklist)] [] [] with
    | .raises e => .raises e
    | .prompts => .prompts
    | .ok (lf, cf) =>
      -- line 73
      if lf ≠ [] then .raises (.invalidListTypes lf)
      -- line 77
      else if cf ≠ [] then .raises (.invalidCharLengths cf)
      -- line 81: interactive input loop for a missing blacklist
      else if printToConsole && !blacklist.isList then .prompts
      -- line 89
      else if blacklist.isNone then .raises .missingBlacklist
      else
        let ns := toChars (numbers.elems.getD [])
        let ls := toChars (letters.elems.getD [])
        let ss := toChars (symbols.elems.getD [])
        let bs := toChars (blacklist.elems.getD [])
        .ok (bcCore ns ls ss bs)

/-- A Python list object: an identity (the CPython `id`) together with its
current contents, used to state the in-place mutation contract. -/
structure CharListObj where
  objId : Nat
  elems : List Char
deriving DecidableEq

/-- Python slice assignment `target[:] = xs`: the contents are replaced, the
object identity is preserved (lines 107-110). -/
def sliceAssign (target : CharListObj) (xs : List Char) : CharListObj :=
  { objId := target.objId, elems := xs }

/-- Lines 92-118 of `blacklistCharacters` at the object level, for a call
whose four arguments are lists of single-character strings (so validation
passes and, the blacklist being a list, the interactive branch is skipped in
both modes). Returns the four containers after the slice assignments plus the
value returned by the `return blacklist` statement at line 118. -/
def blacklistCharactersObj (numbers letters symbols blacklist : CharListObj) :
    CharListObj × CharListObj × CharListObj × CharListObj × CharListObj :=
  let r := bcCore numbers.elems letters.elems symbols.elems blacklist.elems
  let numbers := sliceAssign numbers r.1
  let letters := sliceAssign letters r.2.1
  let symbols := sliceAssign symbols r.2.2.1
  let blacklist := sliceAssign blacklist r.2.2.2
  (numbers, letters, symbols, blacklist, blacklist)

/-- `random.choice(xs)` with an explicit random index `i`: the element at
position `i % len(xs)`, or the default `d` when `xs` is empty (in the source a
choice from an empty sequence is unreachable on the sampling path). -/
def pyChoice {α : Type} (xs : List α) (d : α) (i : Nat) : α :=
  (xs.get? (i % xs.length)).getD d

/-- `list.remove(v)`: removes the first element equal to `v` (line 211). -/
def pyRemove (xs : List (List Char)) (v : List Char) : List (List Char) :=
  match xs with
  | [] => []
  | x :: rest => if x = v then rest else x :: pyRemove rest v

/-- Lines 208-211: iterate over a copy of `characterSets`, removing each empty
set from the current list. -/
def removeEmpties : List (List Char) → List (List Char) → List (List Char)
  | [], cur => cur
  | s :: rest, cur =>
      removeEmpties rest (if s.length = 0 then pyRemove cur s else cur)

/-- One iteration of the generation loop (line 215):
`rng.choice(rng.choice(characterSets))` — first a pool, then a character. -/
def twoStageDraw (sets : List (List Char)) (i j : Nat) : Char :=
  pyChoice (pyChoice sets [] i) 'A' j

/-- Lines 214-215: the `keyLength` characters drawn in generation order. -/
def genChars (sets : List (List Char)) (c : Nat → Nat × Nat) (n : Nat) :
    List Char :=
  (List.range n).map fun k => twoStageDraw sets (c k).1 (c k).2

/-- `keygen` (lines 121-222). `printToConsole` is a real `Bool`, so the line
154 isinstance check always passes. A successful call returns the pair
`(''.join(key), keyLength)` with the key as its list of characters. -/
def keygen (numbers letters symbols : PyArg) (keyLength : PyInt)
    (printToConsole : Bool) (c : Nat → Nat × Nat) :
    KgOutcome (List Char × Int) :=
  -- line 158: keyLength must be an int if it is not None
  if keyLength = .nonInt then .raises .invalidKeyLengthType
  else
    match kgCollect [("numbers", numbers), ("letters", letters),
        ("symbols", symbols)] [] [] with
    | .raises e => .raises e
    | .prompts => .prompts
    | .ok (lf, cf) =>
      -- line 173
      if lf ≠ [] then .raises (.invalidListTypes lf)
      -- line 177
      else if cf ≠ [] then .raises (.invalidCharLengths cf)
      else
        -- lines 181-198
        let kval : KgOutcome Int :=
          if printToConsole then
            match keyLength with
            | .int k => if k > 0 then .ok k else .prompts
            | _ => .prompts
          else
            match keyLength with
            | .none => .raises .missingKeyLength
            | .int k =>
                if k ≤ 0 then .raises .nonPositiveKeyLength else .ok k
            | .nonInt => .raises .invalidKeyLengthType
        match kval with
        | .raises e => .raises e
        | .prompts => .prompts
        | .ok k =>
          let ns := toChars (numbers.elems.getD [])
          let ls := toChars (letters.elems.getD [])
          let ss := toChars (symbols.elems.getD [])
          -- line 201
          if ns = [] ∧ ls = [] ∧ ss = [] then .raises .allPoolsEmpty
          else
            -- lines 205-222
            .ok (genChars (removeEmpties [ns, ls, ss] [ns, ls, ss]) c k.toNat,
              k)

/-- A pool argument built from plain characters: a Python list of
one-character strings. -/
def mkPool (cs : List Char) : PyArg :=
  .pylist (cs.map fun ch => .str [ch])

lemma all_isSingleChar_map (cs : List Char) :
    (cs.map fun ch => PyElem.str [ch]).all PyElem.isSingleChar = true := by
  simp [List.all_eq_true, PyElem.isSingleChar]

lemma toChars_map (cs : List Char) :
    toChars (cs.map fun ch => PyElem.str [ch]) = cs := by
  induction cs with
  | nil => rfl
  | cons a t ih => simpa [toChars, List.filterMap_cons] using ih

/-- A call with four valid lists of single-character strings reaches the core
set computation, in either console mode. -/
lemma bc_mk_eq (n l s b : List Char) (ptc : Bool) :
    blacklistCharacters (mkPool n) (mkPool l) (mkPool s) (mkPool b) ptc =
      .ok (bcCore n l s b) := by
  simp [blacklistCharacters, mkPool, bcCollect, PyArg.isNone, PyArg.isList,
    PyArg.elems, all_isSingleChar_map, toChars_map]

/-- A non-interactive call with three valid lists of single-character strings
and an integer `keyLength`. -/
lemma keygen_mk_eq (n l s : List Char) (k : Int) (c : Nat → Nat × Nat) :
    keygen (mkPool n) (mkPool l) (mkPool s) (.int k) false c =
      if k ≤ 0 then .raises .nonPositiveKeyLength
      else if n = [] ∧ l = [] ∧ s = [] then .raises .allPoolsEmpty
      else .ok (genChars (removeEmpties [n, l, s] [n, l, s]) c k.toNat, k) := by
  by_cases hk : k ≤ 0 <;>
    simp [keygen, mkPool, kgCollect, PyArg.isNone, PyArg.isList, PyArg.elems,
      all_isSingleChar_map, toChars_map, hk]

/-- The empty-set removal loop keeps exactly the non-empty pools, in order. -/
lemma removeEmpties_three (n l s : List Char) :
    removeEmpties [n, l, s] [n, l, s] =
      [n, l, s].filter (fun t => t.length != 0) := by
  match n, l, s with
  | [], [], [] => rfl
  | [], [], _ :: _ => rfl
  | [], _ :: _, [] => rfl
  | [], _ :: _, _ :: _ => rfl
  | _ :: _, [], [] => rfl
  | _ :: _, [], _ :: _ => rfl
  | _ :: _, _ :: _, [] => rfl
  | _ :: _, _ :: _, _ :: _ => rfl

lemma pyChoice_mem {α : Type} (xs : List α) (d : α) (i : Nat) (h : xs ≠ []) :
    pyChoice xs d i ∈ xs := by
  have hl : 0 < xs.length := List.length_pos.mpr h
  have hm : i % xs.length < xs.length := Nat.mod_lt _ hl
  rw [pyChoice, List.get?_eq_get hm]
  simp only [Option.getD_some]
  exact List.get_mem xs (i % xs.length) hm

lemma twoStageDraw_mem (sets : List (List Char)) (i j : Nat)
    (hne : sets ≠ []) (hall : ∀ t ∈ sets, t ≠ []) :
    ∃ t ∈ sets, twoStageDraw sets i j ∈ t := by
  refine ⟨pyChoice sets [] i, pyChoice_mem sets [] i hne, ?_⟩
  exact pyChoice_mem _ _ _ (hall _ (pyChoice_mem sets [] i hne))

lemma toFinset_pySetL (xs : List Char) : (pySetL xs).toFinset = xs.toFinset := by
  ext ch
  simp [pySetL, List.mem_dedup]

lemma toFinset_pyDiffL (xs ys : List Char) :
    (pyDiffL xs ys).toFinset = xs.toFinset \ ys.toFinset := by
  ext ch
  simp [pyDiffL, List.mem_toFinset]

lemma toFinset_pyUnionL (xs ys : List Char) :
    (pyUnionL xs ys).toFinset = xs.toFinset ∪ ys.toFinset := by
  ext ch
  simp [pyUnionL, List.mem_toFinset]
  tauto

/-- C1: counterexample. With `numbers = [0, 1]`, empty `letters` and
`symbols`, and `blacklist = [0]`, the code returns an empty effective
blacklist (`0` was present in a pool, so it is removed from the reported
blacklist at line 104), while the claim demands exactly the blacklisted
characters that were present in a pool, i.e. the set containing `0`. -/
theorem C1_counterexample :
    blacklistCharacters (mkPool ['0', '1']) (mkPool []) (mkPool [])
        (mkPool ['0']) false = .ok (['1'], [], [], []) ∧
    ([] : List Char).toFinset ≠
      (['0'] : List Char).toFinset ∩
        ((['0', '1'] : List Char).toFinset ∪ ([] : List Char).toFinset ∪
          ([] : List Char).toFinset) := by
  constructor
  · decide
  · decide

/-- C1 (amended): for valid single-character pools and a supplied blacklist,
the returned blacklist is a subset of the input blacklist and equals exactly
the set of characters of the input blacklist that were NOT present in
`numbers ∪ letters ∪ symbols` before filtering — the no-op entries; the
characters that were present in some pool are the ones dropped from the
result. -/
theorem C1_blacklist_noop_set (n l s b : List Char) :
    ∃ n2 l2 s2 b2,
      blacklistCharacters (mkPool n) (mkPool l) (mkPool s) (mkPool b) false =
        .ok (n2, l2, s2, b2) ∧
      b2.toFinset = b.toFinset \ (n.toFinset ∪ l.toFinset ∪ s.toFinset) ∧
      b2.toFinset ⊆ b.toFinset := by
  refine ⟨_, _, _, _, bc_mk_eq n l s b false, ?_, ?_⟩
  · simp [bcCore, toFinset_pySetL, toFinset_pyDiffL, toFinset_pyUnionL]
  · simp only [bcCore, toFinset_pySetL, toFinset_pyDiffL, toFinset_pyUnionL]
    exact Finset.sdiff_subset

/-- C5: after the pool filter runs with a supplied blacklist, each pool holds
exactly (as a set) its original characters minus the blacklist set, and no
pool contains any character of the original blacklist. -/
theorem C5_pools_filtered (n l s b : List Char) :
    ∃ n2 l2 s2 b2,
      blacklistCharacters (mkPool n) (mkPool l) (mkPool s) (mkPool b) false =
        .ok (n2, l2, s2, b2) ∧
      n2.toFinset = n.toFinset \ b.toFinset ∧
      l2.toFinset = l.toFinset \ b.toFinset ∧
      s2.toFinset = s.toFinset \ b.toFinset ∧
      ∀ ch ∈ b, ch ∉ n2 ∧ ch ∉ l2 ∧ ch ∉ s2 := by
  refine ⟨_, _, _, _, bc_mk_eq n l s b false, ?_, ?_, ?_, ?_⟩
  · simp [bcCore, toFinset_pySetL, toFinset_pyDiffL, toFinset_pyUnionL]
  · simp [bcCore, toFinset_pySetL, toFinset_pyDiffL, toFinset_pyUnionL]
  · simp [bcCore, toFinset_pySetL, toFinset_pyDiffL, toFinset_pyUnionL]
  · intro ch hch
    refine ⟨?_, ?_, ?_⟩ <;>
      · intro hmem
        have h2 := List.mem_toFinset.mpr hmem
        simp [bcCore, toFinset_pySetL, toFinset_pyDiffL, toFinset_pyUnionL, List.mem_toFinset] at h2
        exact h2.2 hch

/-- C5 witness: the theorem at `numbers = [0, 1]`, empty `letters` and
`symbols`, `blacklist = [0]`. -/
theorem C5_pools_filtered_witness :
    ∃ n2 l2 s2 b2,
      blacklistCharacters (mkPool ['0', '1']) (mkPool []) (mkPool [])
          (mkPool ['0']) false = .ok (n2, l2, s2, b2) ∧
      n2.toFinset =
        (['0', '1'] : List Char).toFinset \ (['0'] : List Char).toFinset ∧
      l2.toFinset =
        ([] : List Char).toFinset \ (['0'] : List Char).toFinset ∧
      s2.toFinset =
        ([] : List Char).toFinset \ (['0'] : List Char).toFinset ∧
      ∀ ch ∈ (['0'] : List Char), ch ∉ n2 ∧ ch ∉ l2 ∧ ch ∉ s2 :=
  C5_pools_filtered ['0', '1'] [] [] ['0']

/-- C9: the pool filter updates the three pool containers in place — after
the call each pool container keeps the identity the caller passed in (the
slice assignments of lines 107-109 preserve the object) and now holds only
the surviving characters. -/
theorem C9_pools_updated_in_place (n l s b : CharListObj) :
    (blacklistCharactersObj n l s b).1.objId = n.objId ∧
    (blacklistCharactersObj n l s b).2.1.objId = l.objId ∧
    (blacklistCharactersObj n l s b).2.2.1.objId = s.objId ∧
    (blacklistCharactersObj n l s b).1.elems.toFinset =
      n.elems.toFinset \ b.elems.toFinset ∧
    (blacklistCharactersObj n l s b).2.1.elems.toFinset =
      l.elems.toFinset \ b.elems.toFinset ∧
    (blacklistCharactersObj n l s b).2.2.1.elems.toFinset =
      s.elems.toFinset \ b.elems.toFinset := by
  refine ⟨rfl, rfl, rfl, ?_, ?_, ?_⟩ <;>
    simp [blacklistCharactersObj, sliceAssign, bcCore, toFinset_pySetL, toFinset_pyDiffL, toFinset_pyUnionL]

/-- C10: the supplied blacklist list is itself mutated in place (slice
assignment at line 110) to hold the result, and the value returned at line
118 is that very object: return value and mutated argument alias one
container with identical contents (the no-op blacklist characters). -/
theorem C10_blacklist_return_aliases (n l s b : CharListObj) :
    (blacklistCharactersObj n l s b).2.2.2.2 =
      (blacklistCharactersObj n l s b).2.2.2.1 ∧
    (blacklistCharactersObj n l s b).2.2.2.2.objId = b.objId ∧
    (blacklistCharactersObj n l s b).2.2.2.2.elems.toFinset =
      b.elems.toFinset \
        (n.elems.toFinset ∪ l.elems.toFinset ∪ s.elems.toFinset) := by
  refine ⟨rfl, rfl, ?_⟩
  simp [blacklistCharactersObj, sliceAssign, bcCore, toFinset_pySetL, toFinset_pyDiffL, toFinset_pyUnionL]

/-- C2: counterexample. The claim quantifies over every `keyLength ≥ 0`, but
at `keyLength = 0` (with a valid non-empty pool) the non-interactive call
raises `ValueError` (line 197) instead of returning a 0-character string. -/
theorem C2_counterexample :
    keygen (mkPool ['0']) (mkPool []) (mkPool []) (.int 0) false
        (fun _ => (0, 0)) = .raises .nonPositiveKeyLength := by
  decide

/-- C2 (amended): for every `keyLength ≥ 1`, valid single-character pools not
all empty, and every random stream, the non-interactive `keygen` returns a
string of exactly `keyLength` characters together with an integer equal to
the input `keyLength`. -/
theorem C2_length_and_echo (n l s : List Char) (k : Int) (c : Nat → Nat × Nat)
    (hk : 1 ≤ k) (hne : ¬(n = [] ∧ l = [] ∧ s = [])) :
    ∃ key, keygen (mkPool n) (mkPool l) (mkPool s) (.int k) false c =
        .ok (key, k) ∧ key.length = k.toNat := by
  refine ⟨genChars (removeEmpties [n, l, s] [n, l, s]) c k.toNat, ?_, ?_⟩
  · rw [keygen_mk_eq, if_neg (by omega), if_neg hne]
  · simp [genChars]

/-- C2 witness: the amended theorem at `numbers = [0, 1]`, `keyLength = 5`. -/
theorem C2_length_and_echo_witness :
    ∃ key, keygen (mkPool ['0', '1']) (mkPool []) (mkPool []) (.int 5) false
        (fun t => (t, t)) = .ok (key, 5) ∧ key.length = (5 : Int).toNat :=
  C2_length_and_echo ['0', '1'] [] [] 5 (fun t => (t, t)) (by decide)
    (by simp)

/-- C4: counterexample. With all three pools empty and `keyLength` absent
(`None`), the non-interactive call raises the `TypeError` about the missing
`keyLength` (line 195) — not the all-pools-empty `ValueError` the claim
demands for every `keyLength`; the error is not even a `ValueError`. -/
theorem C4_counterexample :
    keygen (mkPool []) (mkPool []) (mkPool []) .none false (fun _ => (0, 0)) =
        .raises .missingKeyLength ∧
    PyErr.missingKeyLength ≠ PyErr.allPoolsEmpty ∧
    PyErr.missingKeyLength.isValueError = false := by
  exact ⟨by decide, by decide, rfl⟩

/-- C4 (amended): the all-pools-empty `ValueError` is raised whenever all
three pools are empty and `keyLength` passes its own checks first, i.e. for
every supplied integer `keyLength ≥ 1` in non-interactive mode; `keyLength`
violations (absent, or ≤ 0) are reported before the all-pools-empty check
and mask it. -/
theorem C4_all_pools_empty (k : Int) (c : Nat → Nat × Nat) (hk : 1 ≤ k) :
    keygen (mkPool []) (mkPool []) (mkPool []) (.int k) false c =
      .raises .allPoolsEmpty := by
  rw [keygen_mk_eq, if_neg (by omega), if_pos ⟨rfl, rfl, rfl⟩]

/-- C4 witness: the amended theorem at `keyLength = 3`. -/
theorem C4_all_pools_empty_witness :
    keygen (mkPool []) (mkPool []) (mkPool []) (.int 3) false
        (fun _ => (0, 0)) = .raises .allPoolsEmpty :=
  C4_all_pools_empty 3 (fun _ => (0, 0)) (by decide)

/-- C8: a supplied integer `keyLength ≤ 0` in non-interactive mode raises the
`ValueError` of line 197 (the spec calls it InvalidArgumentValue), while an
absent `keyLength` in non-interactive mode raises the distinct `TypeError` of
line 195 (the spec calls it MissingRequiredArgument), for all valid pools. -/
theorem C8_keyLength_validation (n l s : List Char) (k : Int)
    (c : Nat → Nat × Nat) (hk : k ≤ 0) :
    keygen (mkPool n) (mkPool l) (mkPool s) (.int k) false c =
        .raises .nonPositiveKeyLength ∧
    PyErr.nonPositiveKeyLength.isValueError = true ∧
    keygen (mkPool n) (mkPool l) (mkPool s) .none false c =
        .raises .missingKeyLength ∧
    PyErr.missingKeyLength.isValueError = false := by
  refine ⟨?_, rfl, ?_, rfl⟩
  · rw [keygen_mk_eq, if_pos hk]
  · simp [keygen, mkPool, kgCollect, PyArg.isList, PyArg.isNone, PyArg.elems,
      all_isSingleChar_map]

/-- C8 witness: the theorem at `keyLength = 0` with pool `[a]`. -/
theorem C8_keyLength_validation_witness :
    keygen (mkPool ['a']) (mkPool []) (mkPool []) (.int 0) false
        (fun _ => (0, 0)) = .raises .nonPositiveKeyLength ∧
    PyErr.nonPositiveKeyLength.isValueError = true ∧
    keygen (mkPool ['a']) (mkPool []) (mkPool []) .none false
        (fun _ => (0, 0)) = .raises .missingKeyLength ∧
    PyErr.missingKeyLength.isValueError = false :=
  C8_keyLength_validation ['a'] [] [] 0 (fun _ => (0, 0)) (by decide)

/-- C6: for every random stream, every character of a key returned by a
non-interactive `keygen` call on valid pools belongs to the union of the
three input pools; and when exactly one pool is non-empty, every character
belongs to that pool. -/
theorem C6_chars_from_pools (n l s : List Char) (k : Int)
    (c : Nat → Nat × Nat) (key : List Char) (ret : Int)
    (h : keygen (mkPool n) (mkPool l) (mkPool s) (.int k) false c =
      .ok (key, ret)) :
    (∀ ch ∈ key, ch ∈ n ++ l ++ s) ∧
    ((l = [] ∧ s = []) → ∀ ch ∈ key, ch ∈ n) ∧
    ((n = [] ∧ s = []) → ∀ ch ∈ key, ch ∈ l) ∧
    ((n = [] ∧ l = []) → ∀ ch ∈ key, ch ∈ s) := by
  rw [keygen_mk_eq] at h
  by_cases hk : k ≤ 0
  · rw [if_pos hk] at h
    exact absurd h (by simp)
  rw [if_neg hk] at h
  by_cases hne : n = [] ∧ l = [] ∧ s = []
  · rw [if_pos hne] at h
    exact absurd h (by simp)
  rw [if_neg hne] at h
  have hkey : key = genChars (removeEmpties [n, l, s] [n, l, s]) c k.toNat := by
    cases h
    rfl
  have hsets : removeEmpties [n, l, s] [n, l, s] ≠ [] := by
    rw [removeEmpties_three]
    intro hemp
    rw [List.filter_eq_nil_iff] at hemp
    have h1 := hemp n (by simp)
    have h2 := hemp l (by simp)
    have h3 := hemp s (by simp)
    simp only [bne_iff_ne, ne_eq, not_not, List.length_eq_zero] at h1 h2 h3
    exact hne ⟨h1, h2, h3⟩
  have hall : ∀ t ∈ removeEmpties [n, l, s] [n, l, s], t ≠ [] := by
    rw [removeEmpties_three]
    intro t ht
    have := (List.mem_filter.mp ht).2
    simpa [List.length_eq_zero] using this
  have hmain : ∀ ch ∈ key, ch ∈ n ++ l ++ s := by
    intro ch hch
    rw [hkey] at hch
    obtain ⟨a, -, rfl⟩ := List.mem_map.mp hch
    obtain ⟨t, htmem, hcht⟩ :=
      twoStageDraw_mem (removeEmpties [n, l, s] [n, l, s]) (c a).1 (c a).2
        hsets hall
    have ht3 : t ∈ [n, l, s] := by
      rw [removeEmpties_three] at htmem
      exact List.mem_of_mem_filter htmem
    simp only [List.mem_cons, List.not_mem_nil, or_false] at ht3
    rcases ht3 with rfl | rfl | rfl <;> simp [List.mem_append, hcht]
  refine ⟨hmain, ?_, ?_, ?_⟩
  · rintro ⟨rfl, rfl⟩ ch hch
    simpa using hmain ch hch
  · rintro ⟨rfl, rfl⟩ ch hch
    simpa using hmain ch hch
  · rintro ⟨rfl, rfl⟩ ch hch
    simpa using hmain ch hch

/-- C6 witness: a concrete call with pool `[0, 1]` and a stream whose second
components are even always draws `0`. -/
theorem C6_chars_from_pools_witness :
    (∀ ch ∈ (['0', '0', '0'] : List Char),
      ch ∈ (['0', '1'] : List Char) ++ [] ++ []) ∧
    ((([] : List Char) = [] ∧ ([] : List Char) = []) →
      ∀ ch ∈ (['0', '0', '0'] : List Char), ch ∈ (['0', '1'] : List Char)) ∧
    (((['0', '1'] : List Char) = [] ∧ ([] : List Char) = []) →
      ∀ ch ∈ (['0', '0', '0'] : List Char), ch ∈ ([] : List Char)) ∧
    (((['0', '1'] : List Char) = [] ∧ ([] : List Char) = []) →
      ∀ ch ∈ (['0', '0', '0'] : List Char), ch ∈ ([] : List Char)) :=
  C6_chars_from_pools ['0', '1'] [] [] 3 (fun t => (t, 2 * t)) ['0', '0', '0']
    3 (by decide)

/-- The `listFails` names collected across the three pool arguments, in
dictionary order, given which of them are real lists. -/
def typeFailNames3 (bn ln sn : Bool) : List String :=
  (if bn then [] else ["numbers"]) ++ (if ln then [] else ["letters"]) ++
    (if sn then [] else ["symbols"])

/-- The `characterFails` names collected across the three pool arguments, in
dictionary order. -/
def charFailNames3 (xs ys zs : List PyElem) : List String :=
  (if xs.all PyElem.isSingleChar then [] else ["numbers"]) ++
    (if ys.all PyElem.isSingleChar then [] else ["letters"]) ++
    (if zs.all PyElem.isSingleChar then [] else ["symbols"])

/-- The `characterFails` names collected across all four arguments of
`blacklistCharacters`, in dictionary order. -/
def charFailNames4 (xs ys zs bs : List PyElem) : List String :=
  charFailNames3 xs ys zs ++
    (if bs.all PyElem.isSingleChar then [] else ["blacklist"])

/-- An iterable container argument that is a real list iff the flag holds
(otherwise e.g. a tuple with the same elements). -/
def mkArg (isL : Bool) (xs : List PyElem) : PyArg :=
  if isL then .pylist xs else .iter xs

lemma mkArg_isList (b : Bool) (xs : List PyElem) : (mkArg b xs).isList = b := by
  cases b <;> rfl

lemma mkArg_isNone (b : Bool) (xs : List PyElem) :
    (mkArg b xs).isNone = false := by
  cases b <;> rfl

lemma mkArg_elems (b : Bool) (xs : List PyElem) :
    (mkArg b xs).elems = some xs := by
  cases b <;> rfl

lemma numbers_bne_blacklist : (("numbers" : String) != "blacklist") = true := by
  decide

lemma letters_bne_blacklist : (("letters" : String) != "blacklist") = true := by
  decide

lemma symbols_bne_blacklist : (("symbols" : String) != "blacklist") = true := by
  decide

lemma blacklist_bne_blacklist :
    (("blacklist" : String) != "blacklist") = false := by
  decide

/-- The `keygen` validation loop over three iterable pool arguments collects
the non-list names and the bad-element names, each in dictionary order. -/
lemma kgCollect_eval (bn ln sn : Bool) (xs ys zs : List PyElem) :
    kgCollect [("numbers", mkArg bn xs), ("letters", mkArg ln ys),
      ("symbols", mkArg sn zs)] [] [] =
      .ok (typeFailNames3 bn ln sn, charFailNames3 xs ys zs) := by
  cases bn <;> cases ln <;> cases sn <;>
    cases hx : xs.all PyElem.isSingleChar <;>
    cases hy : ys.all PyElem.isSingleChar <;>
    cases hz : zs.all PyElem.isSingleChar <;>
      simp [kgCollect, mkArg, PyArg.isList, PyArg.isNone, PyArg.elems,
        typeFailNames3, charFailNames3, hx, hy, hz]

/-- The `blacklistCharacters` validation loop over three iterable pool
arguments and a list blacklist: non-list names exclude `blacklist`,
bad-element names include it, each in dictionary order. -/
lemma bcCollect_eval (bn ln sn : Bool) (xs ys zs bs : List PyElem) :
    bcCollect [("numbers", mkArg bn xs), ("letters", mkArg ln ys),
      ("symbols", mkArg sn zs), ("blacklist", .pylist bs)] [] [] =
      .ok (typeFailNames3 bn ln sn, charFailNames4 xs ys zs bs) := by
  cases bn <;> cases ln <;> cases sn <;>
    cases hx : xs.all PyElem.isSingleChar <;>
    cases hy : ys.all PyElem.isSingleChar <;>
    cases hz : zs.all PyElem.isSingleChar <;>
    cases hb : bs.all PyElem.isSingleChar <;>
      simp [bcCollect, mkArg, PyArg.isList, PyArg.isNone, PyArg.elems,
        typeFailNames3, charFailNames3, charFailNames4, hx, hy, hz, hb,
        numbers_bne_blacklist, letters_bne_blacklist, symbols_bne_blacklist,
        blacklist_bne_blacklist]

/-- `keygen` raises the collected-type-failures error when the loop reports a
non-empty `listFails`, for every mode, stream and non-`nonInt` keyLength. -/
lemma keygen_raises_of_listFails (numbers letters symbols : PyArg)
    (k : PyInt) (ptc : Bool) (c : Nat → Nat × Nat) (lf cf : List String)
    (hk : k ≠ .nonInt)
    (h : kgCollect [("numbers", numbers), ("letters", letters),
      ("symbols", symbols)] [] [] = .ok (lf, cf)) (hlf : lf ≠ []) :
    keygen numbers letters symbols k ptc c =
      .raises (.invalidListTypes lf) := by
  unfold keygen
  rw [if_neg hk, h]
  simp [hlf]

/-- `keygen` raises the collected-character-failures error when the loop
reports no type failure and a non-empty `characterFails`. -/
lemma keygen_raises_of_charFails (numbers letters symbols : PyArg)
    (k : PyInt) (ptc : Bool) (c : Nat → Nat × Nat) (cf : List String)
    (hk : k ≠ .nonInt)
    (h : kgCollect [("numbers", numbers), ("letters", letters),
      ("symbols", symbols)] [] [] = .ok ([], cf)) (hcf : cf ≠ []) :
    keygen numbers letters symbols k ptc c =
      .raises (.invalidCharLengths cf) := by
  unfold keygen
  rw [if_neg hk, h]
  simp [hcf]

/-- `blacklistCharacters` analogue of `keygen_raises_of_listFails`. -/
lemma bc_raises_of_listFails (numbers letters symbols : PyArg)
    (bs : List PyElem) (ptc : Bool) (lf cf : List String)
    (h : bcCollect [("numbers", numbers), ("letters", letters),
      ("symbols", symbols), ("blacklist", .pylist bs)] [] [] = .ok (lf, cf))
    (hlf : lf ≠ []) :
    blacklistCharacters numbers letters symbols (.pylist bs) ptc =
      .raises (.invalidListTypes lf) := by
  unfold blacklistCharacters
  rw [h]
  simp [PyArg.isNone, PyArg.isList, hlf]

/-- `blacklistCharacters` analogue of `keygen_raises_of_charFails`. -/
lemma bc_raises_of_charFails (numbers letters symbols : PyArg)
    (bs : List PyElem) (ptc : Bool) (cf : List String)
    (h : bcCollect [("numbers", numbers), ("letters", letters),
      ("symbols", symbols), ("blacklist", .pylist bs)] [] [] = .ok ([], cf))
    (hcf : cf ≠ []) :
    blacklistCharacters numbers letters symbols (.pylist bs) ptc =
      .raises (.invalidCharLengths cf) := by
  unfold blacklistCharacters
  rw [h]
  simp [PyArg.isNone, PyArg.isList, hcf]

/-- C3: counterexample. In `keygen`, a wrong-container `numbers` (a tuple of
one-character strings) and a two-character string inside `letters` violate
validation simultaneously across two arguments, yet the raised error names
only `numbers`: the collected type failures are raised at line 173 before
the collected character failures of line 177, not together with them. In
`blacklistCharacters`, a `blacklist` of the wrong container type is reported
alone and immediately at line 57, even though `numbers` (a tuple) also has
the wrong container type. -/
theorem C3_counterexample :
    keygen (.iter [.str ['a']]) (.pylist [.str ['a', 'b']])
        (.pylist [.str ['c']]) (.int 5) false (fun _ => (0, 0)) =
      .raises (.invalidListTypes ["numbers"]) ∧
    (PyElem.str ['a', 'b']).isSingleChar = false ∧
    "letters" ∉ (["numbers"] : List String) ∧
    blacklistCharacters (.iter [.str ['a']]) (.pylist [.str ['a']])
        (.pylist [.str ['a']]) .noniter false =
      .raises .invalidBlacklistType ∧
    (PyArg.iter [.str ['a']]).isList = false := by
  refine ⟨by decide, rfl, by decide, by decide, rfl⟩

/-- C3 (amended): both functions detect validation violations eagerly,
before any mutation or sampling (the outcomes below hold for every random
stream and leave no container updated). Within each category the violations
are collected across arguments and reported together: one `TypeError` names
every pool argument that is not a list, and — when there is no type failure —
one `ValueError` names every argument containing an element that is not a
one-character string (including `blacklist` in `blacklistCharacters`). The
two categories are however reported in two separate errors, type failures
first; and `blacklistCharacters` reports a `blacklist` of the wrong
container type immediately in its own `TypeError`, regardless of any other
offending argument. -/
theorem C3_validation_collected_per_category :
    (∀ (bn ln sn : Bool) (xs ys zs : List PyElem) (k : PyInt) (ptc : Bool)
      (c : Nat → Nat × Nat), k ≠ .nonInt → typeFailNames3 bn ln sn ≠ [] →
      keygen (mkArg bn xs) (mkArg ln ys) (mkArg sn zs) k ptc c =
        .raises (.invalidListTypes (typeFailNames3 bn ln sn))) ∧
    (∀ (xs ys zs : List PyElem) (k : PyInt) (ptc : Bool)
      (c : Nat → Nat × Nat), k ≠ .nonInt → charFailNames3 xs ys zs ≠ [] →
      keygen (.pylist xs) (.pylist ys) (.pylist zs) k ptc c =
        .raises (.invalidCharLengths (charFailNames3 xs ys zs))) ∧
    (∀ (bn ln sn : Bool) (xs ys zs bs : List PyElem) (ptc : Bool),
      typeFailNames3 bn ln sn ≠ [] →
      blacklistCharacters (mkArg bn xs) (mkArg ln ys) (mkArg sn zs)
          (.pylist bs) ptc =
        .raises (.invalidListTypes (typeFailNames3 bn ln sn))) ∧
    (∀ (xs ys zs bs : List PyElem) (ptc : Bool),
      charFailNames4 xs ys zs bs ≠ [] →
      blacklistCharacters (.pylist xs) (.pylist ys) (.pylist zs) (.pylist bs)
          ptc =
        .raises (.invalidCharLengths (charFailNames4 xs ys zs bs))) ∧
    (∀ (numbers letters symbols : PyArg) (ptc : Bool),
      blacklistCharacters numbers letters symbols .noniter ptc =
        .raises .invalidBlacklistType) := by
  refine ⟨?_, ?_, ?_, ?_, ?_⟩
  · intro bn ln sn xs ys zs k ptc c hknn hne
    exact keygen_raises_of_listFails _ _ _ _ _ _ _ _ hknn
      (kgCollect_eval bn ln sn xs ys zs) hne
  · intro xs ys zs k ptc c hknn hne
    have h := kgCollect_eval true true true xs ys zs
    simp only [mkArg, if_pos, typeFailNames3, ite_true, List.nil_append] at h
    exact keygen_raises_of_charFails _ _ _ _ _ _ _ hknn h hne
  · intro bn ln sn xs ys zs bs ptc hne
    exact bc_raises_of_listFails _ _ _ _ _ _ _
      (bcCollect_eval bn ln sn xs ys zs bs) hne
  · intro xs ys zs bs ptc hne
    have h := bcCollect_eval true true true xs ys zs bs
    simp only [mkArg, if_pos, typeFailNames3, ite_true, List.nil_append] at h
    exact bc_raises_of_charFails _ _ _ _ _ _ h hne
  · intro numbers letters symbols ptc
    simp [blacklistCharacters, PyArg.isNone, PyArg.isList]

/-- C3 amended witness: two-character strings in `numbers` and `symbols` of a
`keygen` call are reported together in one error naming both. -/
theorem C3_validation_collected_witness :
    keygen (.pylist [.str ['a', 'b']]) (.pylist [.str ['a']])
        (.pylist [.str ['x', 'y']]) (.int 5) false (fun _ => (0, 0)) =
      .raises (.invalidCharLengths ["numbers", "symbols"]) := by
  exact C3_validation_collected_per_category.2.1 [.str ['a', 'b']]
    [.str ['a']] [.str ['x', 'y']] (.int 5) false (fun _ => (0, 0))
    (by decide) (by decide)

/-- How often the first-stage choice (`rng.choice(characterSets)`) selects
pool index `p` as its random index ranges over `0, ..., m-1`. -/
def stage1Count (sets : List (List Char)) (p m : Nat) : Nat :=
  ((List.range m).filter fun i => i % sets.length == p).length

/-- How often the second-stage choice (`rng.choice(characterSet)`) selects
position `u` of the chosen pool as its random index ranges over
`0, ..., m-1`. -/
def stage2Count (pool : List Char) (u m : Nat) : Nat :=
  ((List.range m).filter fun j => j % pool.length == u).length

lemma range_filter_mod_length (N p : Nat) (hp : p < N) (t : Nat) :
    ((List.range (N * t)).filter fun i => i % N == p).length = t := by
  induction t with
  | zero => simp
  | succ t ih =>
    have hNt : N * (t + 1) = N * t + N := by ring
    rw [hNt, List.range_add, List.filter_append, List.length_append, ih]
    have hcount : ((List.range N).filter fun i => i == p).length = 1 := by
      rw [← List.countP_eq_length_filter]
      simpa [List.count] using
        List.count_eq_one_of_mem (List.nodup_range N) (List.mem_range.mpr hp)
    rw [List.filter_map, List.length_map]
    have hcong : ∀ i ∈ List.range N,
        (((fun i => i % N == p) ∘ (N * t + ·)) i) = (i == p) := by
      intro i hi
      simp only [Function.comp]
      rw [Nat.mul_add_mod, Nat.mod_eq_of_lt (List.mem_range.mp hi)]
    rw [List.filter_congr hcong, hcount]

/-- C7: keygen draws each output position in two stages. Part 1: the result
equals, position by position in generation order, an inner `pyChoice` over
the list of non-empty pools followed by an outer `pyChoice` inside the chosen
pool. Part 2: the pool stage is uniform over the non-empty pools and
independent of their sizes — over any index range that is a multiple of the
number of non-empty pools, every pool is selected equally often, namely
`m / sets.length` times. Part 3: the character stage is uniform within the
chosen pool. Part 4: this differs from a single uniform draw over the
concatenation of the pools: with pools `[0]` and `[a, b]`, the character `0`
is drawn in 2 of the 4 equiprobable outcomes (probability 1/2, not 1/3). -/
theorem C7_two_stage_uniform_draw (n l s : List Char) (k : Int)
    (c : Nat → Nat × Nat) (hk : 1 ≤ k) (hne : ¬(n = [] ∧ l = [] ∧ s = [])) :
    keygen (mkPool n) (mkPool l) (mkPool s) (.int k) false c =
      .ok ((List.range k.toNat).map fun t =>
        pyChoice
          (pyChoice ([n, l, s].filter fun u => u.length != 0) [] (c t).1)
          'A' (c t).2, k) ∧
    (∀ (sets : List (List Char)) (p q m : Nat), p < sets.length →
      q < sets.length → sets.length ∣ m →
      stage1Count sets p m * sets.length = m ∧
      stage1Count sets p m = stage1Count sets q m) ∧
    (∀ (pool : List Char) (u m : Nat), u < pool.length →
      pool.length ∣ m → stage2Count pool u m * pool.length = m) ∧
    ((((List.range 2).flatMap fun i =>
        (List.range 2).map fun j =>
          twoStageDraw [['0'], ['a', 'b']] i j).count '0') = 2 ∧
      (2 : Nat) * 3 ≠ 1 * 4) := by
  have hstage1 : ∀ (N p m : Nat), p < N → N ∣ m →
      ((List.range m).filter fun i => i % N == p).length * N = m := by
    intro N p m hp hm
    obtain ⟨t, rfl⟩ := hm
    rw [range_filter_mod_length N p hp t, Nat.mul_comm]
  refine ⟨?_, ?_, ?_, by decide, by decide⟩
  · rw [keygen_mk_eq, if_neg (by omega), if_neg hne, removeEmpties_three]
    rfl
  · intro sets p q m hp hq hm
    have h1 := hstage1 sets.length p m hp hm
    have h2 := hstage1 sets.length q m hq hm
    refine ⟨h1, ?_⟩
    have := h1.trans h2.symm
    exact Nat.eq_of_mul_eq_mul_right (Nat.lt_of_le_of_lt (Nat.zero_le p) hp) this
  · intro pool u m hu hm
    exact hstage1 pool.length u m hu hm

/-- C7 witness: the theorem at pools `[0, 1]`, `[a]`, empty `symbols`,
`keyLength = 2`. -/
theorem C7_two_stage_uniform_draw_witness :
    keygen (mkPool ['0', '1']) (mkPool ['a']) (mkPool []) (.int 2) false
        (fun t => (t, t)) =
      .ok ((List.range (2 : Int).toNat).map fun t =>
        pyChoice
          (pyChoice ([['0', '1'], ['a'], []].filter fun u => u.length != 0)
            [] ((fun t => (t, t)) t).1)
          'A' ((fun t => (t, t)) t).2, 2) ∧
    (∀ (sets : List (List Char)) (p q m : Nat), p < sets.length →
      q < sets.length → sets.length ∣ m →
      stage1Count sets p m * sets.length = m ∧
      stage1Count sets p m = stage1Count sets q m) ∧
    (∀ (pool : List Char) (u m : Nat), u < pool.length →
      pool.length ∣ m → stage2Count pool u m * pool.length = m) ∧
    ((((List.range 2).flatMap fun i =>
        (List.range 2).map fun j =>
          twoStageDraw [['0'], ['a', 'b']] i j).count '0') = 2 ∧
      (2 : Nat) * 3 ≠ 1 * 4) :=
  C7_two_stage_uniform_draw ['0', '1'] ['a'] [] 2 (fun t => (t, t))
    (by decide) (by simp)

end Keygen
